import Mathlib

/-!
Verification of the multi-agent document-processing platform.

The frontend utilities (the `useDocumentAnalysis` retry predicate,
`classNames`, the `ProcessingChart` seven-day buckets) are embedded
directly from the TypeScript sources.  The agent runtime (message bus,
orchestrator workflow state machine, status aggregation) is specified in
the repository's specification but its implementation is not among the
checked-in sources, so those components are modelled from the
specification text.
-/

/-! ## Frontend: retry predicate of `useDocumentAnalysis` -/

/-- An HTTP response as seen by the react-query retry callback. -/
structure HttpResponse where
  status : Int
deriving DecidableEq, Repr

/-- The error object handed to the retry callback; `response` may be absent,
as in the optional chain `error?.response?.status`. -/
structure QueryError where
  response : Option HttpResponse
deriving DecidableEq, Repr

/-- The value of the optional chain `error?.response?.status`. -/
def optStatus : Option QueryError → Option Int
  | none => none
  | some e => e.response.map HttpResponse.status

/-- The retry callback of `useDocumentAnalysis` (src/hooks, part_000):
return `false` when `error?.response?.status === 202`, otherwise
`failureCount < 2`. -/
def analysisRetry (failureCount : Nat) (e : Option QueryError) : Bool :=
  if optStatus e = some 202 then false else decide (failureCount < 2)

/-! ## Frontend: `classNames` -/

/-- One argument of the variadic `classNames(...classes)`: a string,
`undefined`, `null`, or `false`. -/
inductive ClassArg
  | str (s : String)
  | undef
  | nullv
  | falsev
deriving DecidableEq, Repr

/-- JavaScript truthiness restricted to the argument type of `classNames`:
only a non-empty string is truthy. -/
def ClassArg.truthy : ClassArg → Bool
  | ClassArg.str s => decide (s ≠ "")
  | _ => false

/-- Selection of a truthy argument: only a non-empty string survives
`filter(Boolean)`. -/
def truthyStr : ClassArg → Option String
  | ClassArg.str s => if s = "" then none else some s
  | _ => none

/-- The result of `classes.filter(Boolean)`: the truthy arguments, which are
exactly the non-empty strings, in order. -/
def truthyStrings (cs : List ClassArg) : List String :=
  cs.filterMap truthyStr

/-- JavaScript `Array.prototype.join(' ')`. -/
def joinSpace : List String → String
  | [] => ""
  | [s] => s
  | s :: rest => s ++ " " ++ joinSpace rest

/-- `classNames` from `src/utils/classNames.ts`:
`classes.filter(Boolean).join(' ')`. -/
def classNames (cs : List ClassArg) : String :=
  joinSpace (truthyStrings cs)

/-! ## Frontend: `ProcessingChart` seven-day buckets -/

/-- The part of a `Document` that the chart reads: the day bucket of its
upload date (as a day number) and its status string. -/
structure Doc where
  upload_day : Int
  status : String
deriving DecidableEq, Repr

/-- One entry of the chart data: a day together with its counters. -/
structure DayEntry where
  fullDate : Int
  uploaded : Nat
  processed : Nat
  errors : Nat
deriving DecidableEq, Repr

/-- The initial seven day buckets: `startOfDay(subDays(new Date(), 6 - i))`
for `i = 0..6`, all counters zero. -/
def initialDays (today : Int) : List DayEntry :=
  (List.range 7).map fun i =>
    { fullDate := today - 6 + (i : Int), uploaded := 0, processed := 0, errors := 0 }

/-- The per-document counter update of `ProcessingChart.chartData`:
`uploaded` always increments; `processed` increments when the status is
`completed`; `errors` increments when the status is `error`. -/
def bumpDay (st : String) (d : DayEntry) : DayEntry :=
  let d1 := { d with uploaded := d.uploaded + 1 }
  if st = "completed" then { d1 with processed := d1.processed + 1 }
  else if st = "error" then { d1 with errors := d1.errors + 1 }
  else d1

/-- In-place update of one list position, as the source's
`days[dayIndex] += ...` mutation. -/
def listModify {α : Type} : List α → Nat → (α → α) → List α
  | [], _, _ => []
  | a :: as, 0, f => f a :: as
  | a :: as, n + 1, f => a :: listModify as n f

/-- Processing of one document: find the day bucket whose date matches the
document's upload day; when found, bump its counters. -/
def addDoc (days : List DayEntry) (doc : Doc) : List DayEntry :=
  match days.findIdx? (fun day => day.fullDate == doc.upload_day) with
  | none => days
  | some i => listModify days i (bumpDay doc.status)

/-- `ProcessingChart.chartData`: fold all documents over the initial seven
day buckets. -/
def chartData (today : Int) (docs : List Doc) : List DayEntry :=
  docs.foldl addDoc (initialDays today)

/-! ## Agent status types (from the frontend `types` module) -/

/-- The closed enumeration of agent states of the `AgentStatus` interface:
idle, busy, error, stopped. -/
inductive AgentState
  | idle
  | busy
  | error
  | stopped
deriving DecidableEq, Repr

/-- The metrics block of the `AgentStatus` interface: cumulative counters for
messages processed and errors, plus the rolling processing time. -/
structure AgentMetrics where
  messages_processed : Nat
  errors : Nat
  processing_time : Nat
deriving DecidableEq, Repr

/-- The `AgentStatus` interface: identifier, type, state drawn from the closed
enumeration, metrics and queue depth. -/
structure AgentStatus where
  agent_id : String
  agent_type : String
  status : AgentState
  metrics : AgentMetrics
  queue_size : Nat
deriving DecidableEq, Repr

/-! ## Message bus

Modelled from the spec: the message bus implementation is not among the
checked-in sources; the definitions below follow the specification of
`send`, the bounded history, and the per-agent bounded queues. -/

/-- Modelled from the spec: a message, immutable unit of communication with a
type tag (field `mtype`, since `type` is reserved), sender, recipient, opaque
payload and correlation id. -/
structure Message where
  id : Nat
  mtype : String
  sender : String
  recipient : String
  payload : String
  correlation_id : String
deriving DecidableEq, Repr

/-- Modelled from the spec: one registered agent of the bus, together with its
bounded inbound queue and that queue's capacity. -/
structure BusEntry where
  agent_id : String
  queue : List Message
  capacity : Nat
deriving DecidableEq, Repr

/-- Modelled from the spec: the failures `send` can report to the caller. -/
inductive SendError
  | unknownRecipient
  | queueFull
deriving DecidableEq, Repr

/-- Modelled from the spec: the bus state, registered agents plus the bounded
message history. -/
structure Bus where
  registry : List BusEntry
  history : List Message
  history_cap : Nat
deriving DecidableEq, Repr

/-- Modelled from the spec: append to the bounded history, evicting the oldest
entries once the configured size is exceeded. -/
def pushHistory (cap : Nat) (h : List Message) (m : Message) : List Message :=
  let h2 := h ++ [m]
  if cap < h2.length then h2.drop (h2.length - cap) else h2

/-- Modelled from the spec: `send` looks up the recipient's queue; an unknown
recipient fails with `UnknownRecipientError`; a queue at capacity fails with
`QueueFullError` rather than blocking; otherwise the message is enqueued and
recorded in the history. -/
def send (bus : Bus) (m : Message) : Except SendError Bus :=
  match bus.registry.find? (fun e => e.agent_id == m.recipient) with
  | none => Except.error SendError.unknownRecipient
  | some e =>
    if e.capacity ≤ e.queue.length then Except.error SendError.queueFull
    else Except.ok
      { bus with
        registry := bus.registry.map fun x =>
          if x.agent_id == m.recipient then { x with queue := x.queue ++ [m] } else x,
        history := pushHistory bus.history_cap bus.history m }

/-- The queue of a registered agent, when registered. -/
def queueOf (bus : Bus) (aid : String) : Option (List Message) :=
  (bus.registry.find? (fun e => e.agent_id == aid)).map BusEntry.queue

/-! ## Orchestrator workflow state machine

Modelled from the spec: the orchestrator implementation is not among the
checked-in sources; the record shape follows the frontend `WorkflowStatus`
type and the transition rules follow the specification. -/

/-- Modelled from the spec: the fixed step order
ingest → analyze → summarize → index → done. -/
inductive Step
  | ingest
  | analyze
  | summarize
  | index
  | done
deriving DecidableEq, Repr

/-- Position of a step in the fixed order. -/
def Step.idx : Step → Nat
  | Step.ingest => 0
  | Step.analyze => 1
  | Step.summarize => 2
  | Step.index => 3
  | Step.done => 4

/-- Successor in the fixed step order; `done` is absorbing. -/
def Step.next : Step → Step
  | Step.ingest => Step.analyze
  | Step.analyze => Step.summarize
  | Step.summarize => Step.index
  | Step.index => Step.done
  | Step.done => Step.done

/-- Modelled from the spec: the workflow statuses; `completed` and `failed`
are terminal. -/
inductive WStatus
  | pending
  | ingesting
  | analyzing
  | summarizing
  | indexing
  | completed
  | failed
deriving DecidableEq, Repr

/-- Terminal workflow statuses stop all further processing. -/
def WStatus.isTerminal : WStatus → Bool
  | WStatus.completed => true
  | WStatus.failed => true
  | _ => false

/-- The status that corresponds to working on a given current step. -/
def stepStatus : Step → WStatus
  | Step.ingest => WStatus.ingesting
  | Step.analyze => WStatus.analyzing
  | Step.summarize => WStatus.summarizing
  | Step.index => WStatus.indexing
  | Step.done => WStatus.completed

/-- One error entry of a workflow, as in the `error_messages` field of the
frontend `WorkflowStatus` type: originating agent, description, step. -/
structure ErrorEntry where
  agent : String
  error : String
  step : Step
deriving DecidableEq, Repr

/-- Modelled from the spec, shape from the frontend `WorkflowStatus` type:
a workflow record, exclusively owned by the orchestrator. -/
structure Workflow where
  workflow_id : String
  document_id : String
  status : WStatus
  current_step : Step
  results : List (Step × String)
  error_messages : List ErrorEntry
  retries : Nat
  started_at : Nat
  completed_at : Option Nat
deriving DecidableEq, Repr

/-- Modelled from the spec: orchestrator configuration, the retry budget. -/
structure OrchConfig where
  max_retries : Nat
deriving DecidableEq, Repr

/-- The messages the orchestrator reacts to for one workflow: a step result
or an error reply. -/
inductive OMsg
  | result (step : Step) (payload : String)
  | errorReply (agent : String) (description : String)
deriving DecidableEq, Repr

/-- Modelled from the spec: handling of a result message.  A terminal
workflow ignores everything; only a result for the current expected step is
accepted, storing the payload, advancing the step, and emitting the next
step request (none when the new step is `done`, which completes the
workflow); results for any other step are ignored. -/
def onResult (now : Nat) (wf : Workflow) (st : Step) (payload : String) :
    Workflow × List Step :=
  if wf.status.isTerminal then (wf, [])
  else if st = wf.current_step then
    let nxt := st.next
    let wf2 := { wf with
      current_step := nxt,
      status := stepStatus nxt,
      results := wf.results ++ [(st, payload)],
      retries := 0,
      completed_at := if nxt = Step.done then some now else wf.completed_at }
    (wf2, if nxt = Step.done then [] else [nxt])
  else (wf, [])

/-- Modelled from the spec: handling of an error reply.  A terminal workflow
ignores it; otherwise the error entry is appended; while retry budget
remains the same step request is re-sent, else the workflow transitions to
`failed` and no further request is emitted. -/
def onError (cfg : OrchConfig) (wf : Workflow) (agent description : String) :
    Workflow × List Step :=
  if wf.status.isTerminal then (wf, [])
  else
    let wf2 := { wf with
      error_messages := wf.error_messages ++
        [({ agent := agent, error := description, step := wf.current_step } : ErrorEntry)] }
    if wf.retries < cfg.max_retries then
      ({ wf2 with retries := wf.retries + 1 }, [wf.current_step])
    else ({ wf2 with status := WStatus.failed }, [])

/-- Dispatch of one orchestrator message for one workflow. -/
def handleMsg (cfg : OrchConfig) (now : Nat) (wf : Workflow) :
    OMsg → Workflow × List Step
  | OMsg.result st p => onResult now wf st p
  | OMsg.errorReply a d => onError cfg wf a d

/-- Repeated error replies: the workflow after `n` error replies, paired with
the total number of step requests emitted along the way. -/
def runErrors (cfg : OrchConfig) (agent description : String) :
    Nat → Workflow → Workflow × Nat
  | 0, wf => (wf, 0)
  | n + 1, wf =>
    let r := onError cfg wf agent description
    let rest := runErrors cfg agent description n r.1
    (rest.1, r.2.length + rest.2)

/-- The trace of `current_step` values observed along a list of messages. -/
def stepTrace (cfg : OrchConfig) (now : Nat) (wf : Workflow) :
    List OMsg → List Step
  | [] => [wf.current_step]
  | m :: ms => wf.current_step :: stepTrace cfg now (handleMsg cfg now wf m).1 ms

/-! ## Status aggregation surface -/

/-- Modelled from the spec: the system state the status surface reads:
registered agents, the workflow store and the bus. -/
structure SystemState where
  agents : List AgentStatus
  workflows : List Workflow
  bus : Bus
deriving DecidableEq, Repr

/-- The `SystemStatus` interface from the frontend types: per-agent snapshot,
active workflow count and bus history size. -/
structure SystemStatus where
  system_status : String
  agents : List (String × AgentStatus)
  active_workflows : Nat
  message_history_size : Nat
deriving DecidableEq, Repr

/-- Modelled from the spec: count of active (non-terminal) workflows. -/
def countActive : List Workflow → Nat
  | [] => 0
  | w :: ws => (if w.status.isTerminal then 0 else 1) + countActive ws

/-- Modelled from the spec: `system_status()` is a pure aggregation; it
returns the state unchanged together with the per-agent snapshot, the active
workflow count and the current bus history size. -/
def systemStatusOp (sys : SystemState) : SystemState × SystemStatus :=
  (sys,
    { system_status := "running",
      agents := sys.agents.map fun a => (a.agent_id, a),
      active_workflows := countActive sys.workflows,
      message_history_size := sys.bus.history.length })

/-- Modelled from the spec: `workflow_status(workflow_id)` returns the stored
workflow record, or nothing for an unknown id. -/
def workflowStatus (sys : SystemState) (wid : String) : Option Workflow :=
  sys.workflows.find? (fun w => w.workflow_id == wid)

/-- Modelled from the spec: the effect of `restart()` on one agent's status:
counters reset to zero, state back to `idle` (clearing `error`). -/
def resetAgent (a : AgentStatus) : AgentStatus :=
  { a with
    status := AgentState.idle,
    metrics := { a.metrics with messages_processed := 0, errors := 0 } }

/-- Modelled from the spec: `restart(agent_id)` resets exactly the named
agent and leaves every other agent untouched. -/
def restartAgent (agents : List AgentStatus) (aid : String) : List AgentStatus :=
  agents.map fun a => if a.agent_id == aid then resetAgent a else a

/-- Status lookup by agent id. -/
def statusOf (agents : List AgentStatus) (aid : String) : Option AgentStatus :=
  agents.find? (fun a => a.agent_id == aid)

/-! ## Concrete fixtures, used to instantiate the theorems -/

/-- A sample ingest-request message addressed to `curator-1`. -/
def mIngest (i : Nat) (cid : String) : Message :=
  { id := i, mtype := "ingest-request", sender := "orchestrator",
    recipient := "curator-1", payload := "p", correlation_id := cid }

/-- A `curator-1` bus entry whose queue of capacity 2 already holds two
messages. -/
def curatorEntryFull : BusEntry :=
  { agent_id := "curator-1", queue := [mIngest 1 "wf-1", mIngest 2 "wf-2"],
    capacity := 2 }

/-- A bus whose only registered agent is `curator-1` with a full queue. -/
def busAtCap : Bus :=
  { registry := [curatorEntryFull], history := [mIngest 1 "wf-1", mIngest 2 "wf-2"],
    history_cap := 1000 }

/-- A bus with an empty registry. -/
def busEmptyReg : Bus :=
  { registry := [], history := [], history_cap := 1000 }

/-- A sample curator agent status. -/
def curatorStatus : AgentStatus :=
  { agent_id := "curator", agent_type := "curator", status := AgentState.idle,
    metrics := { messages_processed := 7, errors := 1, processing_time := 4 },
    queue_size := 0 }

/-- A sample analyzer agent status currently in `error` state. -/
def analyzerStatus : AgentStatus :=
  { agent_id := "analyzer", agent_type := "analyzer", status := AgentState.error,
    metrics := { messages_processed := 5, errors := 3, processing_time := 9 },
    queue_size := 2 }

/-- A sample failed workflow with one error entry. -/
def failedWorkflow : Workflow :=
  { workflow_id := "wf-7", document_id := "doc-7", status := WStatus.failed,
    current_step := Step.analyze,
    results := [(Step.ingest, "text")],
    error_messages := [{ agent := "analyzer", error := "boom", step := Step.analyze }],
    retries := 3, started_at := 10, completed_at := none }

/-- A sample fresh workflow at the ingest step. -/
def freshWorkflow : Workflow :=
  { workflow_id := "wf-1", document_id := "doc-1", status := WStatus.ingesting,
    current_step := Step.ingest, results := [], error_messages := [],
    retries := 0, started_at := 0, completed_at := none }

/-- A sample system state with two agents, two workflows and the full bus. -/
def sampleSystem : SystemState :=
  { agents := [curatorStatus, analyzerStatus],
    workflows := [freshWorkflow, failedWorkflow],
    bus := busAtCap }

/-! ## Lemmas and claim theorems -/

lemma listModify_length {α : Type} (l : List α) (n : Nat) (f : α → α) :
    (listModify l n f).length = l.length := by
  induction l generalizing n with
  | nil => rfl
  | cons a as ih =>
    cases n with
    | zero => rfl
    | succ m => simp [listModify, ih]

lemma mem_listModify {α : Type} {l : List α} {n : Nat} {f : α → α} {x : α}
    (hx : x ∈ listModify l n f) : x ∈ l ∨ ∃ a, a ∈ l ∧ x = f a := by
  induction l generalizing n with
  | nil => simp [listModify] at hx
  | cons a as ih =>
    cases n with
    | zero =>
      rcases List.mem_cons.mp hx with h | h
      · exact Or.inr ⟨a, List.mem_cons_self a as, h⟩
      · exact Or.inl (List.mem_cons_of_mem a h)
    | succ m =>
      rcases List.mem_cons.mp hx with h | h
      · exact Or.inl (h ▸ List.mem_cons_self a as)
      · rcases ih h with h1 | ⟨b, hb, hxb⟩
        · exact Or.inl (List.mem_cons_of_mem a h1)
        · exact Or.inr ⟨b, List.mem_cons_of_mem a hb, hxb⟩

lemma bumpDay_inv {d : DayEntry} (st : String)
    (h : d.processed + d.errors ≤ d.uploaded) :
    (bumpDay st d).processed + (bumpDay st d).errors ≤ (bumpDay st d).uploaded := by
  obtain ⟨fd, u, p, er⟩ := d
  dsimp only at h
  simp only [bumpDay]
  split
  · simp only
    omega
  · split
    · simp only
      omega
    · simp only
      omega

lemma addDoc_length (days : List DayEntry) (doc : Doc) :
    (addDoc days doc).length = days.length := by
  unfold addDoc
  split
  · rfl
  · exact listModify_length days _ _

lemma addDoc_inv {days : List DayEntry} (doc : Doc)
    (h : ∀ e ∈ days, e.processed + e.errors ≤ e.uploaded) :
    ∀ e ∈ addDoc days doc, e.processed + e.errors ≤ e.uploaded := by
  intro e he
  unfold addDoc at he
  split at he
  · exact h e he
  · rcases mem_listModify he with h1 | ⟨a, ha, rfl⟩
    · exact h e h1
    · exact bumpDay_inv doc.status (h a ha)

lemma foldl_addDoc_length (docs : List Doc) (days : List DayEntry) :
    (docs.foldl addDoc days).length = days.length := by
  induction docs generalizing days with
  | nil => rfl
  | cons d ds ih => simp [List.foldl_cons, ih, addDoc_length]

lemma foldl_addDoc_inv (docs : List Doc) (days : List DayEntry)
    (h : ∀ e ∈ days, e.processed + e.errors ≤ e.uploaded) :
    ∀ e ∈ docs.foldl addDoc days, e.processed + e.errors ≤ e.uploaded := by
  induction docs generalizing days with
  | nil => exact h
  | cons d ds ih => exact ih (addDoc days d) (addDoc_inv d h)

/-- Claim C10: the seven-day chart data has exactly 7 entries, and in every
entry the `uploaded` count dominates the sum of `processed` and `errors`,
because a document increments `processed` or `errors` only in the same day
bucket where it increments `uploaded`. -/
theorem chart_week_invariant (today : Int) (docs : List Doc) :
    (chartData today docs).length = 7 ∧
    ∀ e ∈ chartData today docs, e.processed + e.errors ≤ e.uploaded := by
  constructor
  · rw [chartData, foldl_addDoc_length]
    rfl
  · apply foldl_addDoc_inv
    intro e he
    rw [initialDays] at he
    rcases List.mem_map.mp he with ⟨i, _, rfl⟩
    simp

/-- Concrete instantiation of `chart_week_invariant`: one completed document
uploaded today. -/
theorem chart_week_invariant_witness :
    (chartData 0 [{ upload_day := 0, status := "completed" }]).length = 7 ∧
    ({ fullDate := 0, uploaded := 1, processed := 1, errors := 0 } : DayEntry).processed +
      ({ fullDate := 0, uploaded := 1, processed := 1, errors := 0 } : DayEntry).errors ≤
      ({ fullDate := 0, uploaded := 1, processed := 1, errors := 0 } : DayEntry).uploaded := by
  refine ⟨(chart_week_invariant 0 _).1, ?_⟩
  exact (chart_week_invariant 0 [{ upload_day := 0, status := "completed" }]).2
    { fullDate := 0, uploaded := 1, processed := 1, errors := 0 } (by decide)

/-- Claim C7: every agent state exposed at the public interface is drawn from
the closed enumeration idle, busy, error, stopped, and an agent status record
consists exactly of its identifier, type, state, counter metrics and queue
depth. -/
theorem agent_status_closed_enum :
    (∀ st : AgentState, st = AgentState.idle ∨ st = AgentState.busy ∨
      st = AgentState.error ∨ st = AgentState.stopped) ∧
    ∀ a : AgentStatus,
      a = { agent_id := a.agent_id, agent_type := a.agent_type, status := a.status,
            metrics := { messages_processed := a.metrics.messages_processed,
                         errors := a.metrics.errors,
                         processing_time := a.metrics.processing_time },
            queue_size := a.queue_size } := by
  constructor
  · intro st
    cases st
    · exact Or.inl rfl
    · exact Or.inr (Or.inl rfl)
    · exact Or.inr (Or.inr (Or.inl rfl))
    · exact Or.inr (Or.inr (Or.inr rfl))
  · intro a
    rfl

/-- Claim C8: the retry predicate of `useDocumentAnalysis` never retries while
the backend reports HTTP 202, and otherwise retries exactly while the failure
count is below 2 — so at most two retries happen. -/
theorem analysis_retry_spec (failureCount : Nat) (e : Option QueryError) :
    (optStatus e = some 202 → analysisRetry failureCount e = false) ∧
    (optStatus e ≠ some 202 → (analysisRetry failureCount e = true ↔ failureCount < 2)) ∧
    (analysisRetry failureCount e = true → failureCount < 2) := by
  refine ⟨fun h => ?_, fun h => ?_, fun h => ?_⟩
  · simp [analysisRetry, h]
  · simp [analysisRetry, h]
  · by_cases h202 : optStatus e = some 202
    · simp [analysisRetry, h202] at h
    · simp [analysisRetry, h202] at h
      exact h

/-- Concrete instantiation of `analysis_retry_spec`: a 202 response is never
retried; the second failure without a 202 is retried. -/
theorem analysis_retry_spec_witness :
    analysisRetry 0 (some { response := some { status := 202 } }) = false ∧
    analysisRetry 1 none = true := by
  constructor
  · exact (analysis_retry_spec 0 (some { response := some { status := 202 } })).1 (by decide)
  · exact ((analysis_retry_spec 1 none).2.1 (by decide)).mpr (by decide)

lemma mem_truthyStrings_data_ne {cs : List ClassArg} {s : String}
    (h : s ∈ truthyStrings cs) : s.data ≠ [] := by
  rcases List.mem_filterMap.mp h with ⟨a, _, hfa⟩
  cases a with
  | str t =>
    by_cases ht : t = ""
    · simp [truthyStr, ht] at hfa
    · simp [truthyStr, ht] at hfa
      subst hfa
      intro hd
      apply ht
      cases t with
      | mk td =>
        simp only at hd
        rw [hd]
  | undef => simp [truthyStr] at hfa
  | nullv => simp [truthyStr] at hfa
  | falsev => simp [truthyStr] at hfa

lemma truthyStrings_eq_nil {cs : List ClassArg} (h : ∀ a ∈ cs, a.truthy = false) :
    truthyStrings cs = [] := by
  induction cs with
  | nil => rfl
  | cons a as ih =>
    simp only [truthyStrings, List.filterMap_cons]
    have ha := h a (List.mem_cons_self a as)
    have hnone : truthyStr a = none := by
      cases a with
      | str s =>
        simp [ClassArg.truthy] at ha
        simp [truthyStr, ha]
      | undef => rfl
      | nullv => rfl
      | falsev => rfl
    rw [hnone]
    exact ih fun x hx => h x (List.mem_cons_of_mem a hx)

lemma joinSpace_data (l : List String) :
    (joinSpace l).data = List.intercalate [' '] (l.map String.data) := by
  induction l with
  | nil => rfl
  | cons s rest ih =>
    cases rest with
    | nil => simp [joinSpace, List.intercalate, List.intersperse]
    | cons s2 rest2 =>
      have hEq : joinSpace (s :: s2 :: rest2) = s ++ " " ++ joinSpace (s2 :: rest2) := rfl
      rw [hEq, String.data_append, String.data_append, ih]
      simp [List.intercalate, List.intersperse]

lemma chain'_no_space {l : List Char} (h : ' ' ∉ l) :
    l.Chain' (fun a b => ¬(a = ' ' ∧ b = ' ')) := by
  induction l with
  | nil => simp
  | cons a t ih =>
    rw [List.chain'_cons']
    refine ⟨fun y _ hcon => h (hcon.1 ▸ List.mem_cons_self a t), ?_⟩
    exact ih fun hm => h (List.mem_cons_of_mem a hm)

lemma joinSpace_sep (l : List String)
    (hne : ∀ s ∈ l, s.data ≠ [])
    (hsp : ∀ s ∈ l, ' ' ∉ s.data) :
    (l ≠ [] → (joinSpace l).data ≠ []) ∧
    (joinSpace l).data.Chain' (fun a b => ¬(a = ' ' ∧ b = ' ')) ∧
    (joinSpace l).data.head? ≠ some ' ' ∧
    (joinSpace l).data.getLast? ≠ some ' ' := by
  induction l with
  | nil => simp [joinSpace]
  | cons s rest ih =>
    cases rest with
    | nil =>
      have hsd := hne s (List.mem_cons_self s [])
      have hss := hsp s (List.mem_cons_self s [])
      have hJ : joinSpace [s] = s := rfl
      rw [hJ]
      refine ⟨fun _ => hsd, chain'_no_space hss, fun hh => ?_, fun hh => ?_⟩
      · exact hss (List.mem_of_mem_head? (by rw [hh]; rfl))
      · exact hss (List.mem_of_mem_getLast? (by rw [hh]; rfl))
    | cons s2 rest2 =>
      have ih2 := ih (fun x hx => hne x (List.mem_cons_of_mem s hx))
        (fun x hx => hsp x (List.mem_cons_of_mem s hx))
      have htail : (joinSpace (s2 :: rest2)).data ≠ [] := ih2.1 (by simp)
      obtain ⟨b, t2, hbt⟩ := List.exists_cons_of_ne_nil htail
      obtain ⟨a, t, hat⟩ := List.exists_cons_of_ne_nil (hne s (List.mem_cons_self s _))
      have hEq : joinSpace (s :: s2 :: rest2) = s ++ " " ++ joinSpace (s2 :: rest2) := rfl
      have hdata : (joinSpace (s :: s2 :: rest2)).data =
          s.data ++ ' ' :: (joinSpace (s2 :: rest2)).data := by
        rw [hEq, String.data_append, String.data_append]
        have hsp1 : (" " : String).data = [' '] := rfl
        rw [hsp1, List.append_assoc, List.singleton_append]
      have hsps := hsp s (List.mem_cons_self s _)
      refine ⟨fun _ => ?_, ?_, ?_, ?_⟩
      · rw [hdata, hat]
        simp
      · rw [hdata]
        rw [List.chain'_append]
        refine ⟨chain'_no_space hsps, ?_, ?_⟩
        · rw [List.chain'_cons']
          refine ⟨fun y hy hcon => ?_, ih2.2.1⟩
          exact ih2.2.2.1 (by rw [hcon.2] at hy; exact Option.mem_def.mp hy)
        · intro x hx y hy hcon
          exact hsps (hcon.1 ▸ List.mem_of_mem_getLast? hx)
      · rw [hdata, hat]
        intro hh
        simp only [List.cons_append, List.head?_cons, Option.some.injEq] at hh
        exact hsps (by rw [hat, hh]; exact List.mem_cons_self ' ' _)
      · rw [hdata, hbt, List.getLast?_append]
        have hcc : (' ' :: b :: t2).getLast? = (b :: t2).getLast? :=
          List.getLast?_cons_cons
        rw [hcc]
        cases hbg : (b :: t2).getLast? with
        | none => simp at hbg
        | some c =>
          simp only [Option.or]
          intro hh
          apply ih2.2.2.2
          rw [hbt, hbg]
          exact hh

/-- Claim C9: `classNames` returns exactly the truthy string arguments joined
by single spaces in their original order (the library intercalation with a
single-space separator); it returns the empty string when every argument is
falsy; and when the kept strings contain no space themselves the result has
no doubled separator and neither a leading nor a trailing one. -/
theorem classNames_spec (cs : List ClassArg) :
    (classNames cs).data = List.intercalate [' '] ((truthyStrings cs).map String.data) ∧
    ((∀ a ∈ cs, a.truthy = false) → classNames cs = "") ∧
    ((∀ s ∈ truthyStrings cs, ' ' ∉ s.data) →
      (classNames cs).data.Chain' (fun a b => ¬(a = ' ' ∧ b = ' ')) ∧
      (classNames cs).data.head? ≠ some ' ' ∧
      (classNames cs).data.getLast? ≠ some ' ') := by
  refine ⟨joinSpace_data (truthyStrings cs), fun h => ?_, fun hsp => ?_⟩
  · rw [classNames, truthyStrings_eq_nil h]
    rfl
  · have hsep := joinSpace_sep (truthyStrings cs)
      (fun s hs => mem_truthyStrings_data_ne hs) hsp
    exact ⟨hsep.2.1, hsep.2.2.1, hsep.2.2.2⟩

/-- Concrete instantiation of `classNames_spec`: an all-falsy argument list
yields the empty string, and a typical class list gets single separators. -/
theorem classNames_spec_witness :
    classNames [ClassArg.undef, ClassArg.nullv, ClassArg.falsev, ClassArg.str ""] = "" ∧
    (classNames [ClassArg.str "btn", ClassArg.undef, ClassArg.str "active"]).data.head? ≠
      some ' ' := by
  constructor
  · exact (classNames_spec
      [ClassArg.undef, ClassArg.nullv, ClassArg.falsev, ClassArg.str ""]).2.1 (by decide)
  · exact ((classNames_spec
      [ClassArg.str "btn", ClassArg.undef, ClassArg.str "active"]).2.2 (by decide)).2.1

lemma find?_key_map {α : Type} (key : α → String) (g : α → α)
    (hg : ∀ x, key (g x) = key x) (aid : String) (l : List α) :
    (l.map g).find? (fun e => key e == aid) =
      (l.find? (fun e => key e == aid)).map g := by
  induction l with
  | nil => rfl
  | cons x xs ih =>
    simp only [List.map_cons, List.find?_cons]
    rw [hg x]
    cases hx : (key x == aid) with
    | true => simp [hx]
    | false =>
      simp only [hx]
      exact ih

/-- Claim C3: `send` fails with `UnknownRecipientError` when the recipient is
not registered, fails with `QueueFullError` when the recipient's queue
already holds its configured capacity, and otherwise enqueues the message at
the end of the recipient's queue. -/
theorem bus_send_spec (bus : Bus) (m : Message) :
    (bus.registry.find? (fun e => e.agent_id == m.recipient) = none →
      send bus m = Except.error SendError.unknownRecipient) ∧
    (∀ e, bus.registry.find? (fun e2 => e2.agent_id == m.recipient) = some e →
      e.capacity ≤ e.queue.length →
      send bus m = Except.error SendError.queueFull) ∧
    (∀ e, bus.registry.find? (fun e2 => e2.agent_id == m.recipient) = some e →
      e.queue.length < e.capacity →
      ∃ bus2, send bus m = Except.ok bus2 ∧
        queueOf bus2 m.recipient = some (e.queue ++ [m])) := by
  refine ⟨fun h => ?_, fun e he hcap => ?_, fun e he hcap => ?_⟩
  · simp [send, h]
  · simp only [send]
    rw [he]
    simp [hcap]
  · have hne : ¬ e.capacity ≤ e.queue.length := Nat.not_le.mpr hcap
    refine ⟨{ bus with
        registry := bus.registry.map fun x =>
          if x.agent_id == m.recipient then { x with queue := x.queue ++ [m] } else x,
        history := pushHistory bus.history_cap bus.history m }, ?_, ?_⟩
    · simp only [send]
      rw [he]
      simp [hne]
    · have hgkey : ∀ x : BusEntry,
          ((fun x => if x.agent_id == m.recipient
            then { x with queue := x.queue ++ [m] } else x) x).agent_id = x.agent_id := by
        intro x
        by_cases hxa : (x.agent_id == m.recipient) = true
        · simp [hxa]
        · simp [hxa]
      have hfind := find?_key_map BusEntry.agent_id _ hgkey m.recipient bus.registry
      have hpe : e.agent_id = m.recipient := by
        simpa using List.find?_some he
      simp only [queueOf]
      rw [hfind, he]
      simp [hpe]

/-- Concrete instantiation of `bus_send_spec`: with capacity 2 and two queued
messages the third `send` to `curator-1` reports a full queue, and a `send`
to an empty registry reports an unknown recipient. -/
theorem bus_send_spec_witness :
    send busAtCap (mIngest 3 "wf-3") = Except.error SendError.queueFull ∧
    send busEmptyReg (mIngest 4 "wf-4") = Except.error SendError.unknownRecipient := by
  constructor
  · exact (bus_send_spec busAtCap (mIngest 3 "wf-3")).2.1 curatorEntryFull
      (by decide) (by decide)
  · exact (bus_send_spec busEmptyReg (mIngest 4 "wf-4")).1 (by decide)

/-- Claim C4: `restart(agent_id)` resets exactly the named agent's counters to
zero and its state to `idle` (also from a prior `error` state), and the
status of every other agent is unchanged. -/
theorem restart_resets_only_target (agents : List AgentStatus) (aid other : String) :
    (∀ a, statusOf agents aid = some a →
      statusOf (restartAgent agents aid) aid =
        some { a with status := AgentState.idle,
                      metrics := { a.metrics with messages_processed := 0, errors := 0 } }) ∧
    (statusOf agents aid = none → statusOf (restartAgent agents aid) aid = none) ∧
    (other ≠ aid → statusOf (restartAgent agents aid) other = statusOf agents other) := by
  have hgkey : ∀ x : AgentStatus,
      ((fun a => if a.agent_id == aid then resetAgent a else a) x).agent_id = x.agent_id := by
    intro x
    by_cases hxa : (x.agent_id == aid) = true
    · simp [hxa, resetAgent]
    · simp [hxa]
  refine ⟨fun a ha => ?_, fun hnone => ?_, fun hne => ?_⟩
  · simp only [statusOf, restartAgent]
    rw [find?_key_map AgentStatus.agent_id _ hgkey aid agents]
    simp only [statusOf] at ha
    rw [ha]
    have hpa : a.agent_id = aid := by
      simpa using List.find?_some ha
    simp [hpa, resetAgent]
  · simp only [statusOf, restartAgent]
    rw [find?_key_map AgentStatus.agent_id _ hgkey aid agents]
    simp only [statusOf] at hnone
    rw [hnone]
    rfl
  · simp only [statusOf, restartAgent]
    rw [find?_key_map AgentStatus.agent_id _ hgkey other agents]
    cases hfo : agents.find? (fun a => a.agent_id == other) with
    | none => rfl
    | some a =>
      have hpa : (a.agent_id == other) = true := by
        simpa using List.find?_some hfo
      have hana : ¬ a.agent_id = aid := by
        intro hcon
        exact hne (by rw [← beq_iff_eq.mp hpa, hcon])
      simp [hana]

/-- Concrete instantiation of `restart_resets_only_target`: restarting the
erroring `analyzer` yields an idle status with zero counters and leaves the
`curator` untouched. -/
theorem restart_resets_only_target_witness :
    statusOf (restartAgent [curatorStatus, analyzerStatus] "analyzer") "analyzer" =
      some { agent_id := "analyzer", agent_type := "analyzer",
             status := AgentState.idle,
             metrics := { messages_processed := 0, errors := 0, processing_time := 9 },
             queue_size := 2 } ∧
    statusOf (restartAgent [curatorStatus, analyzerStatus] "analyzer") "curator" =
      statusOf [curatorStatus, analyzerStatus] "curator" := by
  constructor
  · exact (restart_resets_only_target [curatorStatus, analyzerStatus]
      "analyzer" "curator").1 analyzerStatus (by decide)
  · exact (restart_resets_only_target [curatorStatus, analyzerStatus]
      "analyzer" "curator").2.2 (by decide)

lemma countActive_eq (ws : List Workflow) :
    countActive ws = (ws.filter fun w => !w.status.isTerminal).length := by
  induction ws with
  | nil => rfl
  | cons w ws2 ih =>
    simp only [countActive, List.filter_cons]
    cases hw : w.status.isTerminal with
    | true => simp [hw, ih]
    | false =>
      simp [hw, ih]
      omega

/-- Claim C5: `system_status()` returns the per-agent snapshot of every
registered agent, the count of non-terminal workflows, and the bus history
size, and it leaves the system state unchanged. -/
theorem system_status_spec (sys : SystemState) :
    (systemStatusOp sys).1 = sys ∧
    (systemStatusOp sys).2.agents = sys.agents.map (fun a => (a.agent_id, a)) ∧
    (∀ a ∈ sys.agents, (a.agent_id, a) ∈ (systemStatusOp sys).2.agents) ∧
    (systemStatusOp sys).2.active_workflows =
      (sys.workflows.filter fun w => !w.status.isTerminal).length ∧
    (systemStatusOp sys).2.message_history_size = sys.bus.history.length := by
  refine ⟨rfl, rfl, fun a ha => ?_, ?_, rfl⟩
  · exact List.mem_map_of_mem _ ha
  · exact countActive_eq sys.workflows

/-- Concrete instantiation of `system_status_spec`: the sample system reports
the curator's snapshot and one active workflow out of two. -/
theorem system_status_spec_witness :
    ("curator", curatorStatus) ∈ (systemStatusOp sampleSystem).2.agents ∧
    (systemStatusOp sampleSystem).2.active_workflows =
      (sampleSystem.workflows.filter fun w => !w.status.isTerminal).length := by
  constructor
  · exact (system_status_spec sampleSystem).2.2.1 curatorStatus (by decide)
  · exact (system_status_spec sampleSystem).2.2.2.1

lemma find?_workflow_nodup {l : List Workflow} {wf : Workflow}
    (hmem : wf ∈ l) (hnodup : (l.map Workflow.workflow_id).Nodup) :
    l.find? (fun w => w.workflow_id == wf.workflow_id) = some wf := by
  induction l with
  | nil => simp at hmem
  | cons x xs ih =>
    rcases List.mem_cons.mp hmem with heq | hx
    · subst heq
      simp [List.find?_cons]
    · have hninx : x.workflow_id ∉ xs.map Workflow.workflow_id := by
        rw [List.map_cons, List.nodup_cons] at hnodup
        exact hnodup.1
      have hb : (x.workflow_id == wf.workflow_id) = false := by
        rw [beq_eq_false_iff_ne]
        intro hcon
        exact hninx (hcon ▸ List.mem_map_of_mem _ hx)
      rw [List.find?_cons]
      rw [hb]
      exact ih hx (by rw [List.map_cons, List.nodup_cons] at hnodup; exact hnodup.2)

/-- Claim C6: every workflow that reached the terminal status `failed` is
reported by `workflow_status` with status `failed`, the step it was on, and
its full accumulated ordered list of error entries. -/
theorem failed_workflow_reported (sys : SystemState) (wf : Workflow)
    (hmem : wf ∈ sys.workflows)
    (hnodup : (sys.workflows.map Workflow.workflow_id).Nodup)
    (hfail : wf.status = WStatus.failed) :
    ∃ w2, workflowStatus sys wf.workflow_id = some w2 ∧
      w2.status = WStatus.failed ∧
      w2.current_step = wf.current_step ∧
      w2.error_messages = wf.error_messages := by
  refine ⟨wf, ?_, hfail, rfl, rfl⟩
  exact find?_workflow_nodup hmem hnodup

/-- Concrete instantiation of `failed_workflow_reported`: the sample failed
workflow `wf-7` is found by a status query. -/
theorem failed_workflow_reported_witness :
    (workflowStatus sampleSystem failedWorkflow.workflow_id).isSome = true := by
  obtain ⟨w2, hw, _, _, _⟩ := failed_workflow_reported sampleSystem failedWorkflow
    (by decide) (by decide) (by decide)
  rw [hw]
  rfl

lemma onError_retry (cfg : OrchConfig) (wf : Workflow) (ag de : String)
    (hterm : wf.status.isTerminal = false) (hlt : wf.retries < cfg.max_retries) :
    onError cfg wf ag de =
      ({ wf with
          error_messages := wf.error_messages ++
            [{ agent := ag, error := de, step := wf.current_step }],
          retries := wf.retries + 1 }, [wf.current_step]) := by
  simp [onError, hterm, hlt]

lemma onError_exhaust (cfg : OrchConfig) (wf : Workflow) (ag de : String)
    (hterm : wf.status.isTerminal = false) (hge : ¬ wf.retries < cfg.max_retries) :
    onError cfg wf ag de =
      ({ wf with
          error_messages := wf.error_messages ++
            [{ agent := ag, error := de, step := wf.current_step }],
          status := WStatus.failed }, []) := by
  simp [onError, hterm, hge]

lemma handleMsg_terminal (cfg : OrchConfig) (now : Nat) (wf : Workflow)
    (h : wf.status.isTerminal = true) : ∀ m, handleMsg cfg now wf m = (wf, []) := by
  intro m
  cases m with
  | result st p => simp [handleMsg, onResult, h]
  | errorReply a d => simp [handleMsg, onError, h]

lemma runErrors_steps (cfg : OrchConfig) (ag de : String) :
    ∀ (k : Nat) (wf : Workflow), wf.status.isTerminal = false →
      wf.retries + k ≤ cfg.max_retries →
      (runErrors cfg ag de k wf).1.status = wf.status ∧
      (runErrors cfg ag de k wf).1.retries = wf.retries + k ∧
      (runErrors cfg ag de k wf).1.current_step = wf.current_step ∧
      (runErrors cfg ag de k wf).2 = k := by
  intro k
  induction k with
  | zero =>
    intro wf h1 h2
    exact ⟨rfl, rfl, rfl, rfl⟩
  | succ n ih =>
    intro wf hterm hbound
    have hlt : wf.retries < cfg.max_retries := by omega
    simp only [runErrors]
    rw [onError_retry cfg wf ag de hterm hlt]
    have hih := ih
      { wf with
        error_messages := wf.error_messages ++
          [{ agent := ag, error := de, step := wf.current_step }],
        retries := wf.retries + 1 }
      (by simpa using hterm) (by simp; omega)
    refine ⟨by simpa using hih.1, ?_, by simpa using hih.2.2.1, ?_⟩
    · have h2 := hih.2.1
      simp at h2
      simp [h2]
      omega
    · have h4 := hih.2.2.2
      simp at h4
      simp [h4]
      omega

lemma runErrors_one (cfg : OrchConfig) (ag de : String) (wf : Workflow) :
    runErrors cfg ag de 1 wf =
      ((onError cfg wf ag de).1, (onError cfg wf ag de).2.length) := by
  simp [runErrors]

lemma runErrors_add (cfg : OrchConfig) (ag de : String) (b : Nat) :
    ∀ (a : Nat) (wf : Workflow),
      runErrors cfg ag de (a + b) wf =
        ((runErrors cfg ag de b (runErrors cfg ag de a wf).1).1,
         (runErrors cfg ag de a wf).2 +
           (runErrors cfg ag de b (runErrors cfg ag de a wf).1).2) := by
  intro a
  induction a with
  | zero =>
    intro wf
    simp [runErrors]
  | succ n ih =>
    intro wf
    have hsw : n + 1 + b = (n + b) + 1 := by omega
    rw [hsw]
    simp only [runErrors]
    rw [ih]
    simp [Nat.add_assoc]

/-- Claim C1: a step that always errors drives the workflow to the terminal
status `failed` after exactly `max_retries` re-sent attempts; during the
retry budget the status is unchanged, and once failed the orchestrator emits
no further step requests for the workflow. -/
theorem workflow_retry_exhaustion (cfg : OrchConfig) (ag de : String) (wf : Workflow)
    (hterm : wf.status.isTerminal = false) (h0 : wf.retries = 0) :
    (runErrors cfg ag de (cfg.max_retries + 1) wf).1.status = WStatus.failed ∧
    (runErrors cfg ag de (cfg.max_retries + 1) wf).2 = cfg.max_retries ∧
    (∀ k, k ≤ cfg.max_retries → (runErrors cfg ag de k wf).1.status = wf.status) ∧
    (∀ now m, handleMsg cfg now (runErrors cfg ag de (cfg.max_retries + 1) wf).1 m =
      ((runErrors cfg ag de (cfg.max_retries + 1) wf).1, [])) := by
  have hsteps := runErrors_steps cfg ag de cfg.max_retries wf hterm (by omega)
  have hterm1 : (runErrors cfg ag de cfg.max_retries wf).1.status.isTerminal = false := by
    rw [hsteps.1]
    exact hterm
  have hge : ¬ (runErrors cfg ag de cfg.max_retries wf).1.retries < cfg.max_retries := by
    rw [hsteps.2.1, h0]
    omega
  have hex := onError_exhaust cfg (runErrors cfg ag de cfg.max_retries wf).1 ag de hterm1 hge
  have hadd := runErrors_add cfg ag de 1 cfg.max_retries wf
  have hfailed : (runErrors cfg ag de (cfg.max_retries + 1) wf).1.status = WStatus.failed := by
    rw [hadd]
    simp only [runErrors_one, hex]
  refine ⟨hfailed, ?_, ?_, ?_⟩
  · rw [hadd]
    simp only [runErrors_one, hex]
    simp [hsteps.2.2.2]
  · intro k hk
    exact (runErrors_steps cfg ag de k wf hterm (by omega)).1
  · intro now m
    exact handleMsg_terminal cfg now _ (by rw [hfailed]; rfl) m

/-- Concrete instantiation of `workflow_retry_exhaustion`: with a budget of 3
retries, four consecutive error replies fail the fresh workflow after 3
re-sent requests, and a further result message is ignored. -/
theorem workflow_retry_exhaustion_witness :
    (runErrors { max_retries := 3 } "analyzer" "boom" 4 freshWorkflow).1.status =
      WStatus.failed ∧
    (runErrors { max_retries := 3 } "analyzer" "boom" 4 freshWorkflow).2 = 3 ∧
    handleMsg { max_retries := 3 } 9
      (runErrors { max_retries := 3 } "analyzer" "boom" 4 freshWorkflow).1
      (OMsg.result Step.ingest "late") =
      ((runErrors { max_retries := 3 } "analyzer" "boom" 4 freshWorkflow).1, []) := by
  have h := workflow_retry_exhaustion { max_retries := 3 } "analyzer" "boom"
    freshWorkflow (by decide) (by decide)
  exact ⟨h.1, h.2.1, h.2.2.2 9 (OMsg.result Step.ingest "late")⟩

lemma Step.idx_le_next (s : Step) : s.idx ≤ s.next.idx := by
  cases s <;> simp [Step.idx, Step.next]

lemma handleMsg_step_mono (cfg : OrchConfig) (now : Nat) (wf : Workflow) (m : OMsg) :
    wf.current_step.idx ≤ (handleMsg cfg now wf m).1.current_step.idx := by
  cases m with
  | result st p =>
    simp only [handleMsg, onResult]
    split
    · exact Nat.le_refl _
    · split
      · rename_i hst
        subst hst
        exact Step.idx_le_next wf.current_step
      · exact Nat.le_refl _
  | errorReply a d =>
    simp only [handleMsg, onError]
    split
    · exact Nat.le_refl _
    · split
      · exact Nat.le_refl _
      · exact Nat.le_refl _

lemma stepTrace_head (cfg : OrchConfig) (now : Nat) (wf : Workflow) (msgs : List OMsg) :
    (stepTrace cfg now wf msgs).head? = some wf.current_step := by
  cases msgs <;> rfl

/-- Claim C2: along any sequence of orchestrator messages the observed
`current_step` values are non-decreasing in the fixed step order, and a
result for a step the workflow has already passed leaves the workflow
unchanged and emits nothing. -/
theorem workflow_step_monotone (cfg : OrchConfig) (now : Nat) (wf : Workflow) :
    (∀ msgs : List OMsg,
      (stepTrace cfg now wf msgs).Chain' (fun a b => a.idx ≤ b.idx)) ∧
    (∀ st p, st.idx < wf.current_step.idx → onResult now wf st p = (wf, [])) := by
  constructor
  · intro msgs
    induction msgs generalizing wf with
    | nil => simp [stepTrace]
    | cons m ms ih =>
      simp only [stepTrace]
      rw [List.chain'_cons']
      refine ⟨fun y hy => ?_, ih _⟩
      rw [stepTrace_head, Option.mem_some_iff] at hy
      rw [← hy]
      exact handleMsg_step_mono cfg now wf m
  · intro st p hlt
    have hne : ¬ st = wf.current_step := by
      intro hcon
      rw [hcon] at hlt
      omega
    simp only [onResult, if_neg hne]
    split <;> rfl

/-- Concrete instantiation of `workflow_step_monotone`: a normal two-step
trace of the fresh workflow is monotone, and a late ingest result for a
workflow already at the analyze step is ignored. -/
theorem workflow_step_monotone_witness :
    (stepTrace { max_retries := 3 } 0 freshWorkflow
      [OMsg.result Step.ingest "t", OMsg.result Step.analyze "a"]).Chain'
      (fun a b => a.idx ≤ b.idx) ∧
    onResult 0 failedWorkflow Step.ingest "late" = (failedWorkflow, []) := by
  constructor
  · exact (workflow_step_monotone { max_retries := 3 } 0 freshWorkflow).1
      [OMsg.result Step.ingest "t", OMsg.result Step.analyze "a"]
  · exact (workflow_step_monotone { max_retries := 3 } 0 failedWorkflow).2
      Step.ingest "late" (by decide)
